import Mathlib

/-!
# dcrpulse treasury scan-and-tally core: shallow embedding and verification

This file embeds the treasury scan/tally subsystem of dcrpulse
(`internal/services`, the treasury portion) in Lean 4 and proves properties
of the embedded definitions.

Modelling conventions:
* Go strings are modelled as `List Char`; `len`, slicing and indexing are
  byte-level in Go and element-level here (the data involved is ASCII hex).
* Go's dynamically typed `map[string]interface{}` transaction records are
  modelled by the inductive `GoVal` (a JSON-like value tree); a failed Go
  type assertion corresponds to a non-matching constructor.
* Go `float64` is modelled as `ℚ`.  All float computations in this code act
  on block counts and vote counts far below 2^52, where float64 arithmetic
  on integers is exact, and on exact divisions/ratios that the claims state
  as rational formulas.
* Go `int`/`int64` are modelled as `ℤ` (no overflow occurs at chain heights
  < 2^32); Go integer division truncates toward zero, i.e. `Int.tdiv`.
* RPC results (block counts, block contents, transaction fetches) are inputs
  of the embedded functions; the code's per-item error handling is embedded
  with `Except`-valued inputs.
-/

namespace DcrPulse

/-! ## Vote-Bits Codec (`parseVoteBitsForTSpend`, `reverseHexBytes`) -/

/-- ASCII simple case folding: models the per-character folding of Go's
`strings.EqualFold` / `strings.ToLower` on the ASCII data handled here. -/
def asciiFold (c : Char) : Char :=
  if 65 ≤ c.toNat ∧ c.toNat ≤ 90 then Char.ofNat (c.toNat + 32) else c

/-- Models Go `strings.EqualFold` (case-insensitive equality) on ASCII. -/
def equalFold (s t : List Char) : Bool :=
  decide (s.map asciiFold = t.map asciiFold)

/-- Groups a character list into consecutive pairs (a trailing odd element is
dropped; `reverseHexBytes` only uses this on even-length input). -/
def toBytePairs : List Char → List (Char × Char)
  | a :: b :: rest => (a, b) :: toBytePairs rest
  | _ => []

/-- Flattens a list of character pairs back into a character list. -/
def ofBytePairs : List (Char × Char) → List Char
  | [] => []
  | (a, b) :: rest => a :: b :: ofBytePairs rest

/-- `reverseHexBytes` (source lines 1230–1244): reverses a hex string by
byte pairs; odd-length input is returned unchanged. -/
def reverseHexBytes (s : List Char) : List Char :=
  if s.length % 2 ≠ 0 then s else ofBytePairs (toBytePairs s).reverse

/-- Value of one hex digit, upper or lower case; `none` on a non-hex char. -/
def hexVal (c : Char) : Option Nat :=
  if 48 ≤ c.toNat ∧ c.toNat ≤ 57 then some (c.toNat - 48)
  else if 97 ≤ c.toNat ∧ c.toNat ≤ 102 then some (c.toNat - 87)
  else if 65 ≤ c.toNat ∧ c.toNat ≤ 70 then some (c.toNat - 55)
  else none

/-- Models `fmt.Sscanf(voteHex, "%02x", &voteByte)`: scans up to two leading
hex digits; on scan failure the Go target byte keeps its zero value. -/
def sscanfHex2 : List Char → Nat
  | [] => 0
  | [c] =>
    match hexVal c with
    | some v => v
    | none => 0
  | c1 :: c2 :: _ =>
    match hexVal c1 with
    | none => 0
    | some v1 =>
      match hexVal c2 with
      | none => v1
      | some v2 => 16 * v1 + v2

/-- `parseVoteBitsForTSpend` (source lines 1151–1219): decodes a treasury
vote choice from a null-data output's hex payload against a target tspend
hash.  Layout: opcode byte + length byte (4 hex chars, skipped), 2-byte
format marker (4 hex chars, skipped), 32-byte reversed tspend hash
(64 hex chars), one vote byte (2 hex chars, low 2 bits carry the choice).
The final branch is `voteByte & 0x03 = 3`; the Go switch's `default` arm is
unreachable since `voteByte & 0x03 < 4`. -/
def parseVoteBitsForTSpend (hexData tspendHash : List Char) : String :=
  if hexData.length < 4 then "unknown"
  else if hexData.length ≤ 4 then "unknown"
  else
    let dataHex := hexData.drop 4
    if dataHex.length < 4 then "unknown"
    else
      let dataRest := dataHex.drop 4
      if dataRest.length < 64 then "unknown"
      else
        let hashHex := dataRest.take 64
        let reversedHash := reverseHexBytes hashHex
        if equalFold reversedHash tspendHash = false then "unknown"
        else if dataRest.length < 66 then "unknown"
        else
          let voteByte := sscanfHex2 ((dataRest.drop 64).take 2)
          if voteByte % 4 = 0 then "abstain"
          else if voteByte % 4 = 1 then "yes"
          else if voteByte % 4 = 2 then "no"
          else "invalid"

/-- Lower-case hex digit for a value `< 16` (used to build encoder inputs). -/
def hexDigitLower (n : Nat) : Char :=
  Char.ofNat (if n < 10 then 48 + n else 87 + n)

/-- Two lower-case hex chars of a byte value. -/
def byteToHex (v : Nat) : List Char :=
  [hexDigitLower (v / 16), hexDigitLower (v % 16)]

/-- The wire mapping of the low two vote bits, as the spec states it:
`00→abstain, 01→yes, 10→no, 11→invalid`. -/
def voteLabel (n : Nat) : String :=
  if n = 0 then "abstain"
  else if n = 1 then "yes"
  else if n = 2 then "no"
  else "invalid"

/-- The hex payload the spec's round-trip property describes: opcode byte,
length byte, two format-marker bytes, the 32-byte hash in reversed byte
order, then one vote byte. -/
def encodeTSpendVoteHex (b1 b2 b3 b4 : Nat) (hash : List Char) (v : Nat) :
    List Char :=
  byteToHex b1 ++ byteToHex b2 ++ byteToHex b3 ++ byteToHex b4 ++
    reverseHexBytes hash ++ byteToHex v


/-! ## Dynamically typed transaction records (`map[string]interface{}`) -/

/-- A JSON-like value tree modelling Go's `interface{}` values produced by
`json.Unmarshal` into `map[string]interface{}`: JSON numbers arrive as
`float64` (modelled as `ℚ`), objects as string-keyed maps, arrays as
`[]interface{}`. -/
inductive GoVal where
  | vnull : GoVal
  | vbool : Bool → GoVal
  | vnum : ℚ → GoVal
  | vstr : String → GoVal
  | varr : List GoVal → GoVal
  | vobj : List (String × GoVal) → GoVal

/-- Key access in a Go map value (first binding wins; Go maps have unique
keys, so an embedded record never relies on duplicates). -/
def lookupA : List (String × GoVal) → String → Option GoVal
  | [], _ => none
  | (k, v) :: rest, key => if k = key then some v else lookupA rest key

/-- `tx["field"]` on a transaction record; `none` models an absent key or a
non-object receiver. -/
def GoVal.lookup : GoVal → String → Option GoVal
  | GoVal.vobj fields, key => lookupA fields key
  | _, _ => none

/-- `needle` begins `hay`. -/
def listStartsWith : List Char → List Char → Bool
  | _, [] => true
  | [], _ :: _ => false
  | a :: as, b :: bs => a = b && listStartsWith as bs

/-- Models Go `strings.Contains hay needle` on character lists. -/
def strContains (hay needle : List Char) : Bool :=
  match hay with
  | [] => needle.isEmpty
  | _ :: rest => listStartsWith hay needle || strContains rest needle

/-- Method 1 of `isTreasurySpend` (source lines 420–435): some `vin` entry
is an object carrying a `treasuryspend` key. -/
def hasTSpendVinB (tx : GoVal) : Bool :=
  match tx.lookup "vin" with
  | some (GoVal.varr vin) =>
    decide (vin.length > 0) &&
      vin.any fun v =>
        match v with
        | GoVal.vobj vinMap => (lookupA vinMap "treasuryspend").isSome
        | _ => false
  | _ => false

/-- The `version == 3` check of `isTreasurySpend` (source lines 460–462):
`version, _ := tx["version"].(float64)`, a failed assertion leaving 0. -/
def versionIs3 (tx : GoVal) : Bool :=
  match tx.lookup "version" with
  | some (GoVal.vnum q) => q == 3
  | _ => false

/-- One iteration of the Method-2 output loop (source lines 441–466): the
output is an object whose `scriptPubKey.type` string contains
`"treasurygen"` after lowercasing, and the transaction-level version check
passes. -/
def tgenOutput (versionOk : Bool) (v : GoVal) : Bool :=
  match v with
  | GoVal.vobj voutMap =>
    match lookupA voutMap "scriptPubKey" with
    | some (GoVal.vobj spk) =>
      match lookupA spk "type" with
      | some (GoVal.vstr scriptType) =>
        strContains (scriptType.toList.map asciiFold) "treasurygen".toList &&
          versionOk
      | _ => false
    | _ => false
  | _ => false

/-- Method 2 of `isTreasurySpend` (source lines 437–467). -/
def hasTGenVoutB (tx : GoVal) : Bool :=
  match tx.lookup "vout" with
  | some (GoVal.varr vout) =>
    decide (vout.length > 0) && vout.any (tgenOutput (versionIs3 tx))
  | _ => false

/-- `isTreasurySpend` (source lines 419–470): Method 1 wins immediately;
otherwise Method 2 decides. -/
def isTreasurySpend (tx : GoVal) : Bool :=
  if hasTSpendVinB tx then true else hasTGenVoutB tx

/-- Walk of the `vout` loop of `parseTSpendVote` (source lines 1116–1143):
first null-data output whose hex payload decodes to a non-`"unknown"` vote
for the target hash wins; outputs that are not objects, have no
`scriptPubKey` object, a non-`"nulldata"` type, or a missing/empty hex
string are skipped. -/
def parseVoteLoop (tspendHash : List Char) : List GoVal → String
  | [] => "unknown"
  | o :: rest =>
    match o with
    | GoVal.vobj voutMap =>
      match lookupA voutMap "scriptPubKey" with
      | some (GoVal.vobj spk) =>
        let scriptType :=
          match lookupA spk "type" with
          | some (GoVal.vstr s) => s
          | _ => ""
        if scriptType ≠ "nulldata" then parseVoteLoop tspendHash rest
        else
          match lookupA spk "hex" with
          | some (GoVal.vstr hexData) =>
            if hexData = "" then parseVoteLoop tspendHash rest
            else
              let vote := parseVoteBitsForTSpend hexData.toList tspendHash
              if vote ≠ "unknown" then vote else parseVoteLoop tspendHash rest
          | _ => parseVoteLoop tspendHash rest
      | _ => parseVoteLoop tspendHash rest
    | _ => parseVoteLoop tspendHash rest

/-- `parseTSpendVote` (source lines 1107–1146): requires a `vout` array with
at least two entries before examining any output. -/
def parseTSpendVote (tx : GoVal) (tspendHash : List Char) : String :=
  match tx.lookup "vout" with
  | some (GoVal.varr vout) =>
    if vout.length < 2 then "unknown" else parseVoteLoop tspendHash vout
  | _ => "unknown"

/-- `isVoteTransaction` (source lines 1090–1104): the first `vin` entry must
be an object carrying a `stakebase` key. -/
def isVoteTransaction (tx : GoVal) : Bool :=
  match tx.lookup "vin" with
  | some (GoVal.varr vin) =>
    match vin with
    | [] => false
    | firstVin :: _ =>
      match firstVin with
      | GoVal.vobj m => (lookupA m "stakebase").isSome
      | _ => false
  | _ => false

/-! ## Vote Tally Engine: final statistics -/

/-- Block where the treasury was first activated (source line 285). -/
def TreasuryActivationHeight : Int := 552448

/-- `types.TSpendVotingInfo`, with the fields the tally engine computes
(the two RPC-fetched timestamp fields are omitted: they never feed back
into any computation). -/
structure TSpendVotingInfo where
  VotingStartBlock : Int
  VotingEndBlock : Int
  YesVotes : Nat
  NoVotes : Nat
  EligibleVotes : Int
  VotesCast : Nat
  QuorumRequired : Int
  ApprovalRate : ℚ
  TurnoutRate : ℚ
  QuorumAchieved : Bool
  VotingComplete : Bool
  InMempool : Bool
  deriving DecidableEq

/-- `calculateTSpendVotes` (source lines 777–857) with its RPC effects as
inputs: `currentHeight` is the fetched chain tip and `yes`/`no` are the
counts returned by `countTSpendVotesInRange` (both already replaced by
`0, 0` if counting failed, exactly as the source does).  Window derivation
and every statistic follow the source line by line; `eligibleVotes` is
`int(float64(votingEndBlock−votingStartBlock) * 5)`, exact at these
magnitudes. -/
def calculateTSpendVotes (inMempool : Bool) (blockHeight expiry currentHeight : Int)
    (yes no : Nat) : TSpendVotingInfo :=
  let votingStartBlock :=
    if inMempool then
      let s := currentHeight - 2880
      if s < 0 then 0 else s
    else
      let s := blockHeight - 2880
      if s < TreasuryActivationHeight then TreasuryActivationHeight else s
  let votingEndBlock := if inMempool then expiry else blockHeight
  let votingComplete := if inMempool then false else true
  let votesCast := yes + no
  let approvalRate : ℚ :=
    if votesCast > 0 then (yes : ℚ) / (votesCast : ℚ) * 100 else 0
  let eligibleVotes : Int := (votingEndBlock - votingStartBlock) * 5
  let turnoutRate : ℚ :=
    if eligibleVotes > 0 then (votesCast : ℚ) / (eligibleVotes : ℚ) * 100 else 0
  let quorumRequired := Int.tdiv eligibleVotes 5
  let quorumAchieved := decide ((votesCast : Int) ≥ quorumRequired)
  { VotingStartBlock := votingStartBlock
    VotingEndBlock := votingEndBlock
    YesVotes := yes
    NoVotes := no
    EligibleVotes := eligibleVotes
    VotesCast := votesCast
    QuorumRequired := quorumRequired
    ApprovalRate := approvalRate
    TurnoutRate := turnoutRate
    QuorumAchieved := quorumAchieved
    VotingComplete := votingComplete
    InMempool := inMempool }

/-- The final tally built by `calculateTSpendVotesAsync`
(source lines 860–1007) with the per-block vote counting loop's outcome as
inputs `yes`/`no`.  `totalBlocks` is computed from the pre-truncation
window (line 880), while the start block is truncated to the most recent
3000 blocks (lines 901–904) before scanning and is what the final record
carries; `eligibleVotes = int(float64(totalBlocks) * 5)` (line 981). -/
def calculateTSpendVotesAsync (blockHeight : Int) (yes no : Nat) :
    TSpendVotingInfo :=
  let s0 := blockHeight - 2880
  let votingStartBlock0 :=
    if s0 < TreasuryActivationHeight then TreasuryActivationHeight else s0
  let votingEndBlock := blockHeight
  let totalBlocks := votingEndBlock - votingStartBlock0 + 1
  let votingStartBlock :=
    if votingEndBlock - votingStartBlock0 > 3000 then votingEndBlock - 3000
    else votingStartBlock0
  let votesCast := yes + no
  let approvalRate : ℚ :=
    if votesCast > 0 then (yes : ℚ) / (votesCast : ℚ) * 100 else 0
  let eligibleVotes : Int := totalBlocks * 5
  let turnoutRate : ℚ :=
    if eligibleVotes > 0 then (votesCast : ℚ) / (eligibleVotes : ℚ) * 100 else 0
  let quorumRequired := Int.tdiv eligibleVotes 5
  let quorumAchieved := decide ((votesCast : Int) ≥ quorumRequired)
  { VotingStartBlock := votingStartBlock
    VotingEndBlock := votingEndBlock
    YesVotes := yes
    NoVotes := no
    EligibleVotes := eligibleVotes
    VotesCast := votesCast
    QuorumRequired := quorumRequired
    ApprovalRate := approvalRate
    TurnoutRate := turnoutRate
    QuorumAchieved := quorumAchieved
    VotingComplete := true
    InMempool := false }

/-! ## Historical Scanner state -/

/-- `types.TSpendHistory` (fields as populated by `extractTSpendHistory`,
source lines 512–543; the wall-clock timestamp is carried as the raw unix
block time). -/
structure TSpendHistory where
  TxHash : String
  Amount : ℚ
  Payee : String
  BlockHeight : Int
  BlockHash : String
  Timestamp : Int
  VoteResult : String
  deriving DecidableEq

/-- The scanner's package-level state (source lines 289–297), guarded by
`scanMutex`; every exported operation below is one critical section. -/
structure ScanState where
  isScanRunning : Bool
  currentScanHeight : Int
  totalScanHeight : Int
  tspendFoundCount : Nat
  scanResults : List TSpendHistory
  newTSpendBuffer : List TSpendHistory
  deriving DecidableEq

/-- `TriggerHistoricalScan` (source lines 546–567): the synchronous part up
to the `go` statement.  Returns the error string (if any) and the state as
left by the critical section. -/
def TriggerHistoricalScan (startHeight : Int) (st : ScanState) :
    Option String × ScanState :=
  if st.isScanRunning then (some "scan already in progress", st)
  else
    let clamped :=
      if startHeight < TreasuryActivationHeight then TreasuryActivationHeight
      else startHeight
    (none,
      { isScanRunning := true
        currentScanHeight := clamped
        totalScanHeight := st.totalScanHeight
        tspendFoundCount := 0
        scanResults := []
        newTSpendBuffer := [] })

/-- `types.TSpendScanProgress` as assembled by `GetScanProgress`. -/
structure TSpendScanProgress where
  IsScanning : Bool
  CurrentHeight : Int
  TotalHeight : Int
  Progress : ℚ
  TSpendFound : Nat
  NewTSpends : List TSpendHistory
  Message : String
  deriving DecidableEq

/-- `GetScanProgress` (source lines 650–682): returns the snapshot and the
state after the drain-once buffer is cleared.  The percent value is the raw
formula whenever `totalScanHeight > TreasuryActivationHeight`; the source
applies no clamping. -/
def GetScanProgress (st : ScanState) : TSpendScanProgress × ScanState :=
  let progress : ℚ :=
    if st.totalScanHeight > TreasuryActivationHeight then
      ((st.currentScanHeight - TreasuryActivationHeight : Int) : ℚ) /
        ((st.totalScanHeight - TreasuryActivationHeight : Int) : ℚ) * 100
    else 0
  let message :=
    if st.isScanRunning then "Scanning blockchain for treasury spends..."
    else if st.tspendFoundCount > 0 then
      "Scan complete. Found " ++ toString st.tspendFoundCount ++
        " treasury spends"
    else "No scan in progress"
  ({ IsScanning := st.isScanRunning
     CurrentHeight := st.currentScanHeight
     TotalHeight := st.totalScanHeight
     Progress := progress
     TSpendFound := st.tspendFoundCount
     NewTSpends := st.newTSpendBuffer
     Message := message },
   { st with newTSpendBuffer := [] })

/-! ## Mempool Prober -/

/-- Truncation toward zero of a rational: Go's `int64(f)` on a `float64`. -/
def truncQ (q : ℚ) : Int := Int.tdiv q.num (q.den : Int)

/-- `types.TSpend` (fields as populated by `extractTSpendInfo`, source
lines 473–509; the `DetectedAt` wall-clock field is omitted). -/
structure TSpend where
  TxHash : String
  Amount : ℚ
  Payee : String
  ExpiryHeight : Int
  CurrentHeight : Int
  BlocksRemaining : Int
  Status : String
  deriving DecidableEq

/-- `extractTSpendInfo` (source lines 473–509).  Amount sums all `value`
fields; the payee is overwritten by each output that carries a first
address, so the last one found wins; failed assertions contribute the Go
zero value. -/
def extractTSpendInfo (tx : GoVal) (currentHeight : Int) : TSpend :=
  let txid :=
    match tx.lookup "txid" with
    | some (GoVal.vstr s) => s
    | _ => ""
  let expiry : ℚ :=
    match tx.lookup "expiry" with
    | some (GoVal.vnum q) => q
    | _ => 0
  let vout :=
    match tx.lookup "vout" with
    | some (GoVal.varr l) => l
    | _ => []
  let acc := vout.foldl
    (fun (acc : ℚ × String) v =>
      match v with
      | GoVal.vobj voutMap =>
        let value : ℚ :=
          match lookupA voutMap "value" with
          | some (GoVal.vnum q) => q
          | _ => 0
        let payee :=
          match lookupA voutMap "scriptPubKey" with
          | some (GoVal.vobj spk) =>
            match lookupA spk "addresses" with
            | some (GoVal.varr (a :: _)) =>
              match a with
              | GoVal.vstr s => s
              | _ => acc.2
            | _ => acc.2
          | _ => acc.2
        (acc.1 + value, payee)
      | _ => acc)
    ((0 : ℚ), "")
  let expiryHeight := truncQ expiry
  { TxHash := txid
    Amount := acc.1
    Payee := acc.2
    ExpiryHeight := expiryHeight
    CurrentHeight := currentHeight
    BlocksRemaining := expiryHeight - currentHeight
    Status := "voting" }

/-- The ledger data source responses that one mempool probe consumes.
`rawMempool` is the `getrawmempool` call combined with its JSON unmarshal
(either step failing is a total failure); its payload lists the mempool
transaction ids in the (nondeterministic) Go map iteration order. -/
structure MempoolEnv where
  clientAvailable : Bool
  rawMempool : Except Unit (List String)
  blockCount : Except Unit Int
  txLookup : String → Except Unit GoVal

/-- `scanMempoolForTSpends` (source lines 353–398).  The result models a Go
slice: `none` is the nil slice (the `var tspends []types.TSpend` zero value,
returned when nothing was appended), `some l` a non-nil slice.  Error
returns carry the nil slice implicitly. -/
def scanMempoolForTSpends (env : MempoolEnv) :
    Except String (Option (List TSpend)) :=
  if env.clientAvailable = false then
    Except.error "dcrd client not available"
  else
    match env.rawMempool with
    | Except.error _ => Except.error "failed to get mempool"
    | Except.ok txHashes =>
      let currentHeight :=
        match env.blockCount with
        | Except.ok h => h
        | Except.error _ => 0
      let tspends := txHashes.foldl
        (fun acc txHash =>
          match env.txLookup txHash with
          | Except.error _ => acc
          | Except.ok tx =>
            if isTreasurySpend tx then
              some (acc.getD [] ++ [extractTSpendInfo tx currentHeight])
            else acc)
        (none : Option (List TSpend))
      Except.ok tspends

/-- The `ActiveTSpends` field of the record `FetchTreasuryInfo`
(source lines 301–329) returns: a scan error is logged and replaced by an
empty slice, and a nil slice from a successful scan is also replaced by an
empty slice.  The balance and the constant-valued fields are omitted. -/
def fetchTreasuryInfoActiveTSpends (env : MempoolEnv) : Option (List TSpend) :=
  match scanMempoolForTSpends env with
  | Except.error _ => some []
  | Except.ok activeTSpends =>
    match activeTSpends with
    | none => some []
    | some l => some l

/-! ## Vote Tally Engine: shared state and interleaving model

`GetTSpendVotingInfo` (source lines 706–766) and
`calculateTSpendVotesAsync` (lines 860–1030) coordinate through three
mutex-guarded globals (lines 696–703): the result cache `votingCache`, the
progress map, and the running-job registry `parsingJobs`.  Each
mutex-guarded region is one atomic step; thread-local control between the
regions is recorded in a program counter.  A caller thread's steps are:

1. `checkCache` — lines 708–715: read `votingCache[hash]` under the cache
   lock (skipped entirely when `inMempool`).
2. `checkJobs` — lines 718–720: read `parsingJobs[hash]` under the jobs
   lock.  If set, the call returns a snapshot/synchronous result without
   touching the cache or the registry (lines 722–740 and 759–765, which
   write nothing).  If clear: non-mempool callers proceed to `register`,
   mempool callers compute synchronously and return (lines 759–765).
3. `register` — lines 744–748: set `parsingJobs[hash] = true` under the
   jobs lock and launch the background job, then return a placeholder.
   The registration is decided by the value read in step 2, not re-checked.

A background job's cache- and registry-relevant steps, in source order, are
the final-result cache write (lines 1010–1012) and the deferred
deregistration (lines 862–866, which runs last).  The tally a job writes is
a parameter of the launch: it depends on chain data read while the job
runs, so two jobs for the same hash may write different values. -/

inductive CallerPc where
  | checkCache : CallerPc
  | checkJobs : CallerPc
  | register : CallerPc
  | retCached : TSpendVotingInfo → CallerPc
  | retSnapshot : CallerPc
  | retPlaceholder : CallerPc
  deriving DecidableEq

/-- One in-flight `GetTSpendVotingInfo` call.  `jobResult` is the tally the
job launched by this caller would eventually write. -/
structure CallerTh where
  hash : String
  isMempool : Bool
  jobResult : TSpendVotingInfo
  pc : CallerPc
  deriving DecidableEq

inductive JobPc where
  | writeCache : JobPc
  | deregister : JobPc
  | finished : JobPc
  deriving DecidableEq

/-- One launched background tally job. -/
structure JobTh where
  hash : String
  result : TSpendVotingInfo
  pc : JobPc
  deriving DecidableEq

/-- Go map assignment `m[k] = v` on an association list. -/
def setAssoc : List (String × TSpendVotingInfo) → String → TSpendVotingInfo →
    List (String × TSpendVotingInfo)
  | [], k, v => [(k, v)]
  | (k', v') :: rest, k, v =>
    if k' = k then (k, v) :: rest else (k', v') :: setAssoc rest k v

/-- Lookup in the result cache. -/
def cacheGet : List (String × TSpendVotingInfo) → String →
    Option TSpendVotingInfo
  | [], _ => none
  | (k, v) :: rest, key => if k = key then some v else cacheGet rest key

/-- The tally engine's shared state plus the in-flight threads.
`launchCount` is a ghost counter of `go calculateTSpendVotesAsync`
statements executed. -/
structure Engine where
  votingCache : List (String × TSpendVotingInfo)
  parsingJobs : List String
  callers : List CallerTh
  jobsArr : List JobTh
  launchCount : Nat
  deriving DecidableEq

/-- Replace element `i` of a list (identity when out of range). -/
def setAt {α : Type} : List α → Nat → α → List α
  | [], _, _ => []
  | _ :: rest, 0, a => a :: rest
  | x :: rest, n + 1, a => x :: setAt rest n a

/-- One atomic step of caller thread `i` (identity when `i` is out of range
or the caller has returned). -/
def stepCaller (e : Engine) (i : Nat) : Engine :=
  match e.callers[i]? with
  | none => e
  | some c =>
    match c.pc with
    | CallerPc.checkCache =>
      if c.isMempool then
        { e with callers := setAt e.callers i { c with pc := CallerPc.checkJobs } }
      else
        match cacheGet e.votingCache c.hash with
        | some v =>
          { e with callers := setAt e.callers i { c with pc := CallerPc.retCached v } }
        | none =>
          { e with callers := setAt e.callers i { c with pc := CallerPc.checkJobs } }
    | CallerPc.checkJobs =>
      if c.hash ∈ e.parsingJobs then
        { e with callers := setAt e.callers i { c with pc := CallerPc.retSnapshot } }
      else if c.isMempool then
        { e with callers := setAt e.callers i { c with pc := CallerPc.retSnapshot } }
      else
        { e with callers := setAt e.callers i { c with pc := CallerPc.register } }
    | CallerPc.register =>
      { e with
        callers := setAt e.callers i { c with pc := CallerPc.retPlaceholder }
        parsingJobs := c.hash :: e.parsingJobs
        jobsArr := e.jobsArr ++ [{ hash := c.hash, result := c.jobResult,
                                   pc := JobPc.writeCache }]
        launchCount := e.launchCount + 1 }
    | _ => e

/-- One atomic step of background job `j` (identity when out of range or
finished). -/
def stepJob (e : Engine) (j : Nat) : Engine :=
  match e.jobsArr[j]? with
  | none => e
  | some jb =>
    match jb.pc with
    | JobPc.writeCache =>
      { e with
        votingCache := setAssoc e.votingCache jb.hash jb.result
        jobsArr := setAt e.jobsArr j { jb with pc := JobPc.deregister } }
    | JobPc.deregister =>
      { e with
        parsingJobs := e.parsingJobs.filter (fun h => h ≠ jb.hash)
        jobsArr := setAt e.jobsArr j { jb with pc := JobPc.finished } }
    | JobPc.finished => e

/-- A scheduling choice: which thread takes the next atomic step. -/
inductive Choice where
  | caller : Nat → Choice
  | job : Nat → Choice
  deriving DecidableEq

def stepE (e : Engine) : Choice → Engine
  | Choice.caller i => stepCaller e i
  | Choice.job j => stepJob e j

/-- Run a schedule. -/
def execE (e : Engine) (sched : List Choice) : Engine :=
  sched.foldl stepE e

/-- Sample finalized tallies used in concrete traces: the tallies two racing
jobs for the same hash compute from chain data read at different times. -/
def sampleTally1 : TSpendVotingInfo :=
  { VotingStartBlock := 557120, VotingEndBlock := 560000, YesVotes := 1000,
    NoVotes := 500, EligibleVotes := 14405, VotesCast := 1500,
    QuorumRequired := 2881, ApprovalRate := 0, TurnoutRate := 0,
    QuorumAchieved := false, VotingComplete := true, InMempool := false }

def sampleTally2 : TSpendVotingInfo :=
  { sampleTally1 with YesVotes := 1001, VotesCast := 1501 }

/-! ## Concrete test vectors used by closed witness/counterexample theorems -/

/-- A 32-byte tspend hash in display byte order, as 64 hex chars. -/
def targetW : List Char :=
  "00112233445566778899aabbccddeeff00112233445566778899aabbccddeeff".toList

/-- A different 32-byte tspend hash (differs in the last byte). -/
def targetW2 : List Char :=
  "00112233445566778899aabbccddeeff00112233445566778899aabbccddee00".toList

/-- A well-formed null-data vote output for `targetW` (vote byte `0x05`,
low bits `01` = yes). -/
def outputW : GoVal :=
  GoVal.vobj
    [("scriptPubKey",
      GoVal.vobj
        [("type", GoVal.vstr "nulldata"),
         ("hex", GoVal.vstr (String.mk (encodeTSpendVoteHex 106 69 1 2 targetW 5)))])]

/-- A vote transaction whose `vout` has only one (well-formed, matching)
entry — below the decoder's two-output minimum. -/
def txSingleVout : GoVal := GoVal.vobj [("vout", GoVal.varr [outputW])]

/-- A transaction whose only signal is a `treasuryspend` input marker. -/
def txMarkerOnly : GoVal :=
  GoVal.vobj
    [("vin", GoVal.varr [GoVal.vobj [("treasuryspend", GoVal.vstr "")]]),
     ("version", GoVal.vnum 1)]

/-- Scan state reachable by `TriggerHistoricalScan 600000` when the chain
tip snapshot taken by the background scan was 560000: the start height is
above the snapshot tip, so the loop body never runs and the state keeps
`currentScanHeight = 600000`, `totalScanHeight = 560000`. -/
def stAboveTip : ScanState :=
  { isScanRunning := true, currentScanHeight := 600000,
    totalScanHeight := 560000, tspendFoundCount := 0,
    scanResults := [], newTSpendBuffer := [] }

/-- An idle scan state with leftovers from a previous run. -/
def stIdleW : ScanState :=
  { isScanRunning := false, currentScanHeight := 560000,
    totalScanHeight := 560000, tspendFoundCount := 2,
    scanResults := [], newTSpendBuffer := [] }

/-- A running scan state. -/
def stRunningW : ScanState := { stIdleW with isScanRunning := true }

/-- A probing environment where the client is up but the mempool listing
fails. -/
def envMempoolFail : MempoolEnv :=
  { clientAvailable := true, rawMempool := Except.error (),
    blockCount := Except.error (), txLookup := fun _ => Except.error () }

/-- Two racing non-mempool `GetTSpendVotingInfo` calls for the same hash
`"h"` with no cache entry; the jobs they would launch compute different
tallies (chain data changed in between). -/
def engRace : Engine :=
  { votingCache := [], parsingJobs := [],
    callers :=
      [{ hash := "h", isMempool := false, jobResult := sampleTally1,
         pc := CallerPc.checkCache },
       { hash := "h", isMempool := false, jobResult := sampleTally2,
         pc := CallerPc.checkCache }],
    jobsArr := [], launchCount := 0 }

/-- Same two callers, parameterized by the tallies their jobs would write. -/
def engTwo (v1 v2 : TSpendVotingInfo) : Engine :=
  { votingCache := [], parsingJobs := [],
    callers :=
      [{ hash := "h", isMempool := false, jobResult := v1,
         pc := CallerPc.checkCache },
       { hash := "h", isMempool := false, jobResult := v2,
         pc := CallerPc.checkCache }],
    jobsArr := [], launchCount := 0 }

/-- The racing interleaving: both callers pass the cache check, then both
pass the running-job check (both read `false`), then both register and
launch. -/
def schedRace : List Choice :=
  [Choice.caller 0, Choice.caller 1, Choice.caller 0, Choice.caller 1,
   Choice.caller 0, Choice.caller 1]

/-- The serial schedule: the first call runs to completion before the
second starts. -/
def schedSerial : List Choice :=
  [Choice.caller 0, Choice.caller 0, Choice.caller 0,
   Choice.caller 1, Choice.caller 1]

/-- Engine used by the cache-immutability witness: `"h"` already cached,
a fresh non-mempool caller about to read the cache. -/
def engCachedW : Engine :=
  { votingCache := [("h", sampleTally1)], parsingJobs := [],
    callers :=
      [{ hash := "h", isMempool := false, jobResult := sampleTally2,
         pc := CallerPc.checkCache }],
    jobsArr := [], launchCount := 0 }

/-! ## Claim theorems -/

/-! ### Codec helper lemmas -/

theorem ofBytePairs_toBytePairs :
    ∀ s : List Char, s.length % 2 = 0 → ofBytePairs (toBytePairs s) = s
  | [], _ => rfl
  | [_], h => by simp at h
  | a :: b :: rest, h => by
    have hr : rest.length % 2 = 0 := by
      simp only [List.length_cons] at h
      omega
    simp [toBytePairs, ofBytePairs, ofBytePairs_toBytePairs rest hr]

theorem toBytePairs_ofBytePairs :
    ∀ L : List (Char × Char), toBytePairs (ofBytePairs L) = L
  | [] => rfl
  | (a, b) :: rest => by
    simp [toBytePairs, ofBytePairs, toBytePairs_ofBytePairs rest]

theorem length_ofBytePairs :
    ∀ L : List (Char × Char), (ofBytePairs L).length = 2 * L.length
  | [] => rfl
  | (a, b) :: rest => by
    simp [ofBytePairs, length_ofBytePairs rest]
    omega

theorem length_toBytePairs :
    ∀ s : List Char, (toBytePairs s).length = s.length / 2
  | [] => rfl
  | [_] => by simp [toBytePairs]
  | a :: b :: rest => by
    simp [toBytePairs, length_toBytePairs rest]
    omega

theorem length_reverseHexBytes (s : List Char) (h : s.length % 2 = 0) :
    (reverseHexBytes s).length = s.length := by
  simp only [reverseHexBytes, h]
  simp [length_ofBytePairs, length_toBytePairs]
  omega

theorem reverseHexBytes_involutive (s : List Char) (h : s.length % 2 = 0) :
    reverseHexBytes (reverseHexBytes s) = s := by
  have h1 : reverseHexBytes s = ofBytePairs (toBytePairs s).reverse := by
    simp [reverseHexBytes, h]
  have h2 : (reverseHexBytes s).length % 2 = 0 := by
    rw [length_reverseHexBytes s h]; exact h
  rw [h1] at h2 ⊢
  simp only [reverseHexBytes, h2]
  simp [toBytePairs_ofBytePairs, ofBytePairs_toBytePairs s h]

theorem equalFold_refl (s : List Char) : equalFold s s = true := by
  simp [equalFold]

theorem hexVal_hexDigitLower : ∀ d < 16, hexVal (hexDigitLower d) = some d := by
  decide

theorem sscanfHex2_byteToHex (v : Nat) (hv : v < 256) :
    sscanfHex2 (byteToHex v) = v := by
  have h1 : v / 16 < 16 := by omega
  have h2 : v % 16 < 16 := by omega
  simp [byteToHex, sscanfHex2, hexVal_hexDigitLower _ h1,
    hexVal_hexDigitLower _ h2]
  omega

theorem byteToHex_length (v : Nat) : (byteToHex v).length = 2 := rfl

set_option maxHeartbeats 1000000 in
/-- C3: the Vote-Bits Codec is total: for every input hex string and target
hash it returns one of the five labels `yes/no/abstain/invalid/unknown`;
and every input that is too short at any stage of the fixed layout (missing
opcode/length bytes, missing 2-byte marker, fewer than 64 hex chars of
hash, or no vote byte after the hash — i.e. fewer than 74 chars in all)
resolves to `"unknown"`. -/
theorem parseVoteBits_total_short_unknown (hexData tspendHash : List Char) :
    (parseVoteBitsForTSpend hexData tspendHash = "abstain" ∨
     parseVoteBitsForTSpend hexData tspendHash = "yes" ∨
     parseVoteBitsForTSpend hexData tspendHash = "no" ∨
     parseVoteBitsForTSpend hexData tspendHash = "invalid" ∨
     parseVoteBitsForTSpend hexData tspendHash = "unknown") ∧
    (hexData.length < 74 →
      parseVoteBitsForTSpend hexData tspendHash = "unknown") := by
  constructor
  · simp only [parseVoteBitsForTSpend]
    split_ifs <;> simp
  · intro hshort
    simp only [parseVoteBitsForTSpend, List.length_drop]
    split_ifs <;> first | rfl | omega

/-- C3 witness: a concrete 73-char payload (one char short of a vote byte)
decodes to `"unknown"`. -/
theorem parseVoteBits_total_short_unknown_w :
    parseVoteBitsForTSpend (List.replicate 73 '0') [] = "unknown" :=
  (parseVoteBits_total_short_unknown (List.replicate 73 '0') []).2 (by decide)

/-- C10: whenever a transaction record's `vout` is absent, not an array, or
has fewer than two entries, per-transaction vote decoding returns
`"unknown"` for every target hash, regardless of the outputs' contents. -/
theorem parseTSpendVote_vout_short_unknown (tx : GoVal)
    (tspendHash : List Char)
    (h : match tx.lookup "vout" with
         | some (GoVal.varr l) => l.length < 2
         | _ => True) :
    parseTSpendVote tx tspendHash = "unknown" := by
  unfold parseTSpendVote
  cases hv : tx.lookup "vout" with
  | none => rfl
  | some g =>
    cases g with
    | varr l =>
      simp only [hv] at h
      simp [h]
    | vnull => rfl
    | vbool b => rfl
    | vnum q => rfl
    | vstr s => rfl
    | vobj o => rfl

/-- C10 witness: a transaction with a single well-formed null-data output
whose embedded hash matches the target — and which on its own decodes to
`"yes"` — still yields `"unknown"` because the output list has fewer than
two entries. -/
theorem parseTSpendVote_vout_short_unknown_w :
    parseVoteBitsForTSpend (encodeTSpendVoteHex 106 69 1 2 targetW 5) targetW
        = "yes" ∧
      parseTSpendVote txSingleVout targetW = "unknown" :=
  ⟨by decide,
   parseTSpendVote_vout_short_unknown txSingleVout targetW
     (by exact Nat.one_lt_two)⟩

/-- C1: Vote-Bits Codec round-trip.  For every 32-byte target hash (64 hex
chars, display byte order), every opcode/length/marker bytes and every vote
byte `v < 256`, decoding the payload
`(opcode, length, marker, reverse(hash), v)` against the hash returns the
label encoded by the low two bits of `v` (`00→abstain, 01→yes, 10→no,
11→invalid`); decoding the same payload against any case-insensitively
different hash returns `"unknown"` (distinct 32-byte hashes always have
case-insensitively distinct hex forms). -/
theorem parseVoteBits_roundTrip (b1 b2 b3 b4 : Nat) (hash hash2 : List Char)
    (v : Nat) (hlen : hash.length = 64) (hv : v < 256) :
    parseVoteBitsForTSpend (encodeTSpendVoteHex b1 b2 b3 b4 hash v) hash
        = voteLabel (v % 4) ∧
      (hash2.map asciiFold ≠ hash.map asciiFold →
        parseVoteBitsForTSpend (encodeTSpendVoteHex b1 b2 b3 b4 hash v) hash2
          = "unknown") := by
  have heven : hash.length % 2 = 0 := by omega
  have hrev : (reverseHexBytes hash).length = 64 := by
    rw [length_reverseHexBytes hash heven, hlen]
  have hsplit : encodeTSpendVoteHex b1 b2 b3 b4 hash v =
      (byteToHex b1 ++ byteToHex b2) ++
        ((byteToHex b3 ++ byteToHex b4) ++
          (reverseHexBytes hash ++ byteToHex v)) := by
    simp [encodeTSpendVoteHex, List.append_assoc]
  have hlen12 : (byteToHex b1 ++ byteToHex b2).length = 4 := rfl
  have hlen34 : (byteToHex b3 ++ byteToHex b4).length = 4 := rfl
  have hlenL : (encodeTSpendVoteHex b1 b2 b3 b4 hash v).length = 74 := by
    simp [encodeTSpendVoteHex, byteToHex, hrev]
  have hdrop4 : (encodeTSpendVoteHex b1 b2 b3 b4 hash v).drop 4 =
      (byteToHex b3 ++ byteToHex b4) ++
        (reverseHexBytes hash ++ byteToHex v) := by
    rw [hsplit, ← hlen12, List.drop_left]
  have hdrop8 : ((encodeTSpendVoteHex b1 b2 b3 b4 hash v).drop 4).drop 4 =
      reverseHexBytes hash ++ byteToHex v := by
    rw [hdrop4, ← hlen34, List.drop_left]
  have hrestLen : (reverseHexBytes hash ++ byteToHex v).length = 66 := by
    simp [byteToHex, hrev]
  have htake64 : (reverseHexBytes hash ++ byteToHex v).take 64 =
      reverseHexBytes hash := by
    rw [← hrev, List.take_left]
  have hdrop64 : (reverseHexBytes hash ++ byteToHex v).drop 64 =
      byteToHex v := by
    rw [← hrev, List.drop_left]
  have hinv : reverseHexBytes (reverseHexBytes hash) = hash :=
    reverseHexBytes_involutive hash heven
  have htake2 : (byteToHex v).take 2 = byteToHex v := by
    simp [byteToHex]
  have hlen70 : ((byteToHex b3 ++ byteToHex b4) ++
      (reverseHexBytes hash ++ byteToHex v)).length = 70 := by
    simp [byteToHex, hrev]
  constructor
  · simp only [parseVoteBitsForTSpend]
    rw [hdrop8, hdrop4, hlenL, hrestLen, hlen70, htake64, hinv,
      equalFold_refl, hdrop64, htake2, sscanfHex2_byteToHex v hv]
    norm_num [voteLabel]
  · intro hne
    have hfold : equalFold hash hash2 = false := by
      simp only [equalFold, decide_eq_false_iff_not]
      intro hc
      exact hne hc.symm
    simp only [parseVoteBitsForTSpend]
    rw [hdrop8, hdrop4, hlenL, hrestLen, hlen70, htake64, hinv, hfold]
    norm_num

/-- C1 witness: a concrete payload for `targetW` with vote byte `0x05`
(low bits `01`) decodes to `"yes"` against `targetW` and to `"unknown"`
against the different hash `targetW2`. -/
theorem parseVoteBits_roundTrip_w :
    parseVoteBitsForTSpend (encodeTSpendVoteHex 106 69 1 2 targetW 5) targetW
        = "yes" ∧
      parseVoteBitsForTSpend (encodeTSpendVoteHex 106 69 1 2 targetW 5)
          targetW2 = "unknown" := by
  have h := parseVoteBits_roundTrip 106 69 1 2 targetW targetW2 5
    (by decide) (by decide)
  exact ⟨h.1.trans (by decide), h.2 (by decide)⟩

/-- Method-1 characterization: some input object carries the
`treasuryspend` marker key. -/
theorem hasTSpendVinB_iff (tx : GoVal) :
    hasTSpendVinB tx = true ↔
      ∃ l, tx.lookup "vin" = some (GoVal.varr l) ∧
        ∃ m, GoVal.vobj m ∈ l ∧ (lookupA m "treasuryspend").isSome = true := by
  unfold hasTSpendVinB
  cases hvin : tx.lookup "vin" with
  | none => simp
  | some g =>
    cases g with
    | varr l =>
      simp only [Bool.and_eq_true, List.any_eq_true, decide_eq_true_eq,
        Option.some.injEq]
      constructor
      · rintro ⟨hlen, v, hvmem, hv⟩
        cases v with
        | vobj m => exact ⟨l, rfl, m, hvmem, hv⟩
        | vnull => simp at hv
        | vbool b => simp at hv
        | vnum q => simp at hv
        | vstr s => simp at hv
        | varr a => simp at hv
      · rintro ⟨l2, hl2, m, hmem, hts⟩
        injection hl2 with h
        subst h
        exact ⟨List.length_pos.mpr (List.ne_nil_of_mem hmem),
          GoVal.vobj m, hmem, hts⟩
    | vnull => simp
    | vbool b => simp
    | vnum q => simp
    | vstr s => simp
    | vobj o => simp

/-- Characterization of one Method-2 loop iteration. -/
theorem tgenOutput_iff (versionOk : Bool) (v : GoVal) :
    tgenOutput versionOk v = true ↔
      ∃ m spk t, v = GoVal.vobj m ∧
        lookupA m "scriptPubKey" = some (GoVal.vobj spk) ∧
        lookupA spk "type" = some (GoVal.vstr t) ∧
        strContains (t.toList.map asciiFold) "treasurygen".toList = true ∧
        versionOk = true := by
  constructor
  · intro h
    unfold tgenOutput at h
    split at h
    · split at h
      · split at h
        · rw [Bool.and_eq_true] at h
          exact ⟨_, _, _, rfl, by assumption, by assumption, h.1, h.2⟩
        · exact absurd h (by simp)
      · exact absurd h (by simp)
    · exact absurd h (by simp)
  · rintro ⟨m, spk, t, rfl, hspk, hty, hc, hvok⟩
    unfold tgenOutput
    simp [hspk, hty, hvok]
    simpa using hc

/-- C4: full characterization of the Spend Detector.  `isTreasurySpend`
returns `true` exactly when some input object carries the `treasuryspend`
marker key (regardless of all other fields), or some output's
`scriptPubKey.type` string contains `"treasurygen"` case-insensitively and
the record's `version` is the float 3.  Records lacking both signals —
including absent or wrongly typed `vin`/`vout`/`version` fields — yield
`false`, and the detector is a total function (it never raises). -/
theorem isTreasurySpend_iff (tx : GoVal) :
    isTreasurySpend tx = true ↔
      ((∃ l, tx.lookup "vin" = some (GoVal.varr l) ∧
          ∃ m, GoVal.vobj m ∈ l ∧ (lookupA m "treasuryspend").isSome = true) ∨
        ((∃ l, tx.lookup "vout" = some (GoVal.varr l) ∧
            ∃ m spk t, GoVal.vobj m ∈ l ∧
              lookupA m "scriptPubKey" = some (GoVal.vobj spk) ∧
              lookupA spk "type" = some (GoVal.vstr t) ∧
              strContains (t.toList.map asciiFold) "treasurygen".toList
                = true) ∧
          tx.lookup "version" = some (GoVal.vnum 3))) := by
  have hver : versionIs3 tx = true ↔
      tx.lookup "version" = some (GoVal.vnum 3) := by
    unfold versionIs3
    cases hv : tx.lookup "version" with
    | none => simp
    | some g =>
      cases g with
      | vnum q =>
        constructor
        · intro h
          simp only [beq_iff_eq] at h
          subst h
          rfl
        · intro h
          injection h with h2
          injection h2 with h3
          simp [h3]
      | vnull => simp
      | vbool b => simp
      | vstr s => simp
      | varr a => simp
      | vobj o => simp
  have hm2 : hasTGenVoutB tx = true ↔
      ((∃ l, tx.lookup "vout" = some (GoVal.varr l) ∧
          ∃ m spk t, GoVal.vobj m ∈ l ∧
            lookupA m "scriptPubKey" = some (GoVal.vobj spk) ∧
            lookupA spk "type" = some (GoVal.vstr t) ∧
            strContains (t.toList.map asciiFold) "treasurygen".toList
              = true) ∧
        tx.lookup "version" = some (GoVal.vnum 3)) := by
    unfold hasTGenVoutB
    cases hvout : tx.lookup "vout" with
    | none => simp
    | some g =>
      cases g with
      | varr l =>
        simp only [Bool.and_eq_true, List.any_eq_true, decide_eq_true_eq,
          Option.some.injEq]
        constructor
        · rintro ⟨hlen, v, hvmem, hv⟩
          obtain ⟨m, spk, t, rfl, hspk, hty, hc, hvok⟩ :=
            (tgenOutput_iff (versionIs3 tx) v).mp hv
          exact ⟨⟨l, rfl, m, spk, t, hvmem, hspk, hty, hc⟩, hver.mp hvok⟩
        · rintro ⟨⟨l2, hl2, m, spk, t, hmem, hspk, hty, hc⟩, hv3⟩
          injection hl2 with h
          subst h
          refine ⟨List.length_pos.mpr (List.ne_nil_of_mem hmem),
            GoVal.vobj m, hmem,
            (tgenOutput_iff (versionIs3 tx) _).mpr
              ⟨m, spk, t, rfl, hspk, hty, hc, hver.mpr hv3⟩⟩
      | vnull => simp
      | vbool b => simp
      | vnum q => simp
      | vstr s => simp
      | vobj o => simp
  unfold isTreasurySpend
  cases hm1 : hasTSpendVinB tx with
  | true =>
    simp only [if_true]
    constructor
    · intro _; exact Or.inl ((hasTSpendVinB_iff tx).mp hm1)
    · intro _; trivial
  | false =>
    simp only [Bool.false_eq_true, if_false]
    rw [hm2]
    constructor
    · exact Or.inr
    · rintro (h1 | h2)
      · exact absurd ((hasTSpendVinB_iff tx).mpr h1) (by simp [hm1])
      · exact h2

/-- C4 witness: a transaction whose only signal is a `treasuryspend` input
marker is detected. -/
theorem isTreasurySpend_iff_w : isTreasurySpend txMarkerOnly = true :=
  (isTreasurySpend_iff txMarkerOnly).mpr
    (Or.inl ⟨[GoVal.vobj [("treasuryspend", GoVal.vstr "")]], rfl,
      [("treasuryspend", GoVal.vstr "")], List.mem_cons_self _ _, rfl⟩)

/-- C5: `TriggerHistoricalScan` returns the `"scan already in progress"`
error exactly when a scan is running, and in that case changes no scan
state; on an accepted trigger it clamps the start height up to the
activation floor 552448, sets the current scan height to the clamped
start, resets the found counter to 0, and clears both the accumulated
result list and the newly-found buffer — all before returning. -/
theorem triggerHistoricalScan_spec (startHeight : Int) (st : ScanState) :
    ((TriggerHistoricalScan startHeight st).1 =
        some "scan already in progress" ↔ st.isScanRunning = true) ∧
      (st.isScanRunning = true →
        (TriggerHistoricalScan startHeight st).2 = st) ∧
      (st.isScanRunning = false →
        (TriggerHistoricalScan startHeight st).2.currentScanHeight =
            max startHeight TreasuryActivationHeight ∧
          (TriggerHistoricalScan startHeight st).2.tspendFoundCount = 0 ∧
          (TriggerHistoricalScan startHeight st).2.scanResults = [] ∧
          (TriggerHistoricalScan startHeight st).2.newTSpendBuffer = [] ∧
          (TriggerHistoricalScan startHeight st).2.isScanRunning = true) :=
  by
  unfold TriggerHistoricalScan
  cases hrun : st.isScanRunning with
  | true => simp
  | false =>
    simp only [Bool.false_eq_true, if_false]
    refine ⟨by simp, by simp, fun _ => ⟨?_, trivial, trivial, trivial, trivial⟩⟩
    split <;> rename_i hlt
    · rw [max_eq_right (by omega)]
    · rw [max_eq_left (by omega)]

/-- C5 witness: trigger rejected on a running state (state unchanged) and
accepted on an idle state (clamped start, counters and lists reset). -/
theorem triggerHistoricalScan_spec_w :
    (TriggerHistoricalScan 5 stRunningW).2 = stRunningW ∧
      (TriggerHistoricalScan 5 stIdleW).2.currentScanHeight =
          max 5 TreasuryActivationHeight ∧
        (TriggerHistoricalScan 5 stIdleW).2.tspendFoundCount = 0 ∧
        (TriggerHistoricalScan 5 stIdleW).2.scanResults = [] ∧
        (TriggerHistoricalScan 5 stIdleW).2.newTSpendBuffer = [] ∧
        (TriggerHistoricalScan 5 stIdleW).2.isScanRunning = true :=
  ⟨(triggerHistoricalScan_spec 5 stRunningW).2.1 rfl,
   (triggerHistoricalScan_spec 5 stIdleW).2.2 rfl⟩

/-- C6 counterexample: the claim says the percent value is clamped to
[0, 100]; but in the reachable state left by `TriggerHistoricalScan 600000`
when the chain-tip snapshot was 560000, `GetScanProgress` reports
(600000 − 552448)/(560000 − 552448) × 100 ≈ 629.7, exceeding 100. -/
theorem getScanProgress_counterexample :
    (GetScanProgress stAboveTip).1.Progress = 4755200 / 7552 ∧
      (GetScanProgress stAboveTip).1.Progress > 100 := by
  constructor
  · norm_num [GetScanProgress, stAboveTip, TreasuryActivationHeight]
  · norm_num [GetScanProgress, stAboveTip, TreasuryActivationHeight]

/-- C6 amended: the percent value is the raw, unclamped formula
`(current − activationFloor)/(tip − activationFloor) × 100` whenever the
recorded total exceeds the activation floor, and `0` otherwise; it does lie
in [0, 100] whenever `activationFloor ≤ current ≤ tip`, but the source
applies no clamping, so it exceeds 100 whenever `current > tip` (with
`tip > activationFloor`). -/
theorem getScanProgress_formula (st : ScanState) :
    (st.totalScanHeight ≤ TreasuryActivationHeight →
        (GetScanProgress st).1.Progress = 0) ∧
      (st.totalScanHeight > TreasuryActivationHeight →
        (GetScanProgress st).1.Progress =
          ((st.currentScanHeight - TreasuryActivationHeight : Int) : ℚ) /
              ((st.totalScanHeight - TreasuryActivationHeight : Int) : ℚ) *
            100) ∧
      (TreasuryActivationHeight ≤ st.currentScanHeight →
        st.currentScanHeight ≤ st.totalScanHeight →
        TreasuryActivationHeight < st.totalScanHeight →
        0 ≤ (GetScanProgress st).1.Progress ∧
          (GetScanProgress st).1.Progress ≤ 100) ∧
      (st.currentScanHeight > st.totalScanHeight →
        TreasuryActivationHeight < st.totalScanHeight →
        (GetScanProgress st).1.Progress > 100) := by
  have hform : st.totalScanHeight > TreasuryActivationHeight →
      (GetScanProgress st).1.Progress =
        ((st.currentScanHeight - TreasuryActivationHeight : Int) : ℚ) /
            ((st.totalScanHeight - TreasuryActivationHeight : Int) : ℚ) *
          100 := by
    intro h
    simp only [GetScanProgress, h, if_true]
  refine ⟨?_, hform, ?_, ?_⟩
  · intro h
    simp only [GetScanProgress]
    rw [if_neg (by omega)]
  · intro h1 h2 h3
    rw [hform h3]
    have hb : (0 : ℚ) < ((st.totalScanHeight - TreasuryActivationHeight : Int) : ℚ) := by
      exact_mod_cast (by omega : (0 : Int) < st.totalScanHeight - TreasuryActivationHeight)
    have ha : (0 : ℚ) ≤ ((st.currentScanHeight - TreasuryActivationHeight : Int) : ℚ) := by
      exact_mod_cast (by omega : (0 : Int) ≤ st.currentScanHeight - TreasuryActivationHeight)
    have hab : ((st.currentScanHeight - TreasuryActivationHeight : Int) : ℚ) ≤
        ((st.totalScanHeight - TreasuryActivationHeight : Int) : ℚ) := by
      exact_mod_cast (by omega : st.currentScanHeight - TreasuryActivationHeight ≤
        st.totalScanHeight - TreasuryActivationHeight)
    constructor
    · positivity
    · rw [div_mul_eq_mul_div, div_le_iff₀ hb]
      nlinarith
  · intro h1 h2
    rw [hform h2]
    have hb : (0 : ℚ) < ((st.totalScanHeight - TreasuryActivationHeight : Int) : ℚ) := by
      exact_mod_cast (by omega : (0 : Int) < st.totalScanHeight - TreasuryActivationHeight)
    have hab : ((st.totalScanHeight - TreasuryActivationHeight : Int) : ℚ) <
        ((st.currentScanHeight - TreasuryActivationHeight : Int) : ℚ) := by
      exact_mod_cast (by omega : st.totalScanHeight - TreasuryActivationHeight <
        st.currentScanHeight - TreasuryActivationHeight)
    rw [gt_iff_lt, div_mul_eq_mul_div, lt_div_iff₀ hb]
    nlinarith

/-- C6 amended witness: on the over-the-tip state the formula value matches
and exceeds 100; on an in-range state the value is within bounds. -/
theorem getScanProgress_formula_w :
    (GetScanProgress stAboveTip).1.Progress > 100 ∧
      (0 ≤ (GetScanProgress stIdleW).1.Progress ∧
        (GetScanProgress stIdleW).1.Progress ≤ 100) :=
  ⟨(getScanProgress_formula stAboveTip).2.2.2 (by norm_num [stAboveTip])
      (by norm_num [stAboveTip, TreasuryActivationHeight]),
   (getScanProgress_formula stIdleW).2.2.1
      (by norm_num [stIdleW, TreasuryActivationHeight])
      (by norm_num [stIdleW])
      (by norm_num [stIdleW, TreasuryActivationHeight])⟩

/-- C2 counterexample: the claim says `eligibleVotes = windowBlocks × 5`
with the window block count inclusive of both ends, for the synchronous
path too.  For a confirmed spend at block 560000 the window is
[557120, 560000] (2881 blocks, so the claim demands 14405), but the
synchronous path computes `(end − start) × 5 = 14400`. -/
theorem calculateTSpendVotes_counterexample :
    (calculateTSpendVotes false 560000 0 600000 1000 500).VotingStartBlock
        = 557120 ∧
      (calculateTSpendVotes false 560000 0 600000 1000 500).VotingEndBlock
        = 560000 ∧
      (calculateTSpendVotes false 560000 0 600000 1000 500).EligibleVotes
        = 14400 ∧
      (14400 : Int) < 2881 * 5 := by
  refine ⟨by norm_num [calculateTSpendVotes, TreasuryActivationHeight],
    by norm_num [calculateTSpendVotes, TreasuryActivationHeight],
    by norm_num [calculateTSpendVotes, TreasuryActivationHeight],
    by norm_num⟩

/-- C2 amended: in both completion paths `approvalRate = yes/(yes+no)×100`
(0 when no votes were cast), `quorumRequired = eligibleVotes/5` exactly
(`quorumRequired × 5 = eligibleVotes`), and
`quorumAchieved ↔ votesCast ≥ quorumRequired`; but the two paths disagree
on the eligible-votes base: the asynchronous confirmed path uses the
inclusive window block count (`end − start + 1`) × 5, while the
synchronous path uses `(end − start) × 5`, one block short of the
inclusive count. -/
theorem tallyStats_amended (inMempool : Bool) (bh expiry ch : Int)
    (yes no : Nat) :
    (calculateTSpendVotesAsync bh yes no).EligibleVotes =
        ((calculateTSpendVotesAsync bh yes no).VotingEndBlock -
            (calculateTSpendVotesAsync bh yes no).VotingStartBlock + 1) * 5 ∧
      (calculateTSpendVotes inMempool bh expiry ch yes no).EligibleVotes =
        ((calculateTSpendVotes inMempool bh expiry ch yes no).VotingEndBlock -
            (calculateTSpendVotes inMempool bh expiry ch yes no).VotingStartBlock)
          * 5 ∧
      (calculateTSpendVotesAsync bh yes no).QuorumRequired * 5 =
        (calculateTSpendVotesAsync bh yes no).EligibleVotes ∧
      (calculateTSpendVotes inMempool bh expiry ch yes no).QuorumRequired * 5 =
        (calculateTSpendVotes inMempool bh expiry ch yes no).EligibleVotes ∧
      ((calculateTSpendVotesAsync bh yes no).QuorumAchieved = true ↔
        ((yes + no : Nat) : Int) ≥
          (calculateTSpendVotesAsync bh yes no).QuorumRequired) ∧
      ((calculateTSpendVotes inMempool bh expiry ch yes no).QuorumAchieved
          = true ↔
        ((yes + no : Nat) : Int) ≥
          (calculateTSpendVotes inMempool bh expiry ch yes no).QuorumRequired) ∧
      (yes + no ≠ 0 →
        (calculateTSpendVotesAsync bh yes no).ApprovalRate =
            (yes : ℚ) / ((yes : ℚ) + (no : ℚ)) * 100 ∧
          (calculateTSpendVotes inMempool bh expiry ch yes no).ApprovalRate =
            (yes : ℚ) / ((yes : ℚ) + (no : ℚ)) * 100) ∧
      (yes + no = 0 →
        (calculateTSpendVotesAsync bh yes no).ApprovalRate = 0 ∧
          (calculateTSpendVotes inMempool bh expiry ch yes no).ApprovalRate
            = 0) := by
  have hasync : (calculateTSpendVotesAsync bh yes no).VotingStartBlock =
      if bh - 2880 < TreasuryActivationHeight then TreasuryActivationHeight
      else bh - 2880 := by
    simp only [calculateTSpendVotesAsync]
    split <;> rename_i h1
    · split <;> rename_i h2
      · omega
      · rfl
    · split <;> rename_i h2
      · omega
      · rfl
  refine ⟨?_, ?_, ?_, ?_, ?_, ?_, ?_, ?_⟩
  · rw [hasync]
    simp only [calculateTSpendVotesAsync]
  · simp only [calculateTSpendVotes]
  · simp only [calculateTSpendVotesAsync]
    rw [Int.mul_tdiv_cancel _ (by norm_num)]
  · simp only [calculateTSpendVotes]
    rw [Int.mul_tdiv_cancel _ (by norm_num)]
  · simp only [calculateTSpendVotesAsync]
    rw [decide_eq_true_iff]
  · simp only [calculateTSpendVotes]
    rw [decide_eq_true_iff]
  · intro h
    constructor
    · simp only [calculateTSpendVotesAsync]
      rw [if_pos (by omega)]
      push_cast
      ring
    · simp only [calculateTSpendVotes]
      rw [if_pos (by omega)]
      push_cast
      ring
  · intro h
    constructor
    · simp only [calculateTSpendVotesAsync]
      rw [if_neg (by omega)]
    · simp only [calculateTSpendVotes]
      rw [if_neg (by omega)]

/-- C2 amended witness: the example instance — async path at block 560000
with 1000 yes / 500 no gives `eligibleVotes = 2881 × 5 = 14405`,
`quorumRequired = 2881`, quorum not achieved (1500 < 2881), approval rate
1000/1500 × 100; the sync path gives 14400 and quorum 2880. -/
theorem tallyStats_amended_w :
    (calculateTSpendVotesAsync 560000 1000 500).EligibleVotes = 14405 ∧
      (calculateTSpendVotes false 560000 0 600000 1000 500).EligibleVotes
        = 14400 ∧
      (calculateTSpendVotesAsync 560000 1000 500).ApprovalRate =
        (1000 : ℚ) / 1500 * 100 := by
  have h := tallyStats_amended false 560000 0 600000 1000 500
  refine ⟨?_, ?_, ?_⟩
  · have h1 := h.1
    rw [show (calculateTSpendVotesAsync 560000 1000 500).VotingEndBlock
          = 560000 by norm_num [calculateTSpendVotesAsync],
        show (calculateTSpendVotesAsync 560000 1000 500).VotingStartBlock
          = 557120 by
          norm_num [calculateTSpendVotesAsync, TreasuryActivationHeight]]
      at h1
    rw [h1]
    norm_num
  · have h2 := h.2.1
    rw [show (calculateTSpendVotes false 560000 0 600000 1000 500).VotingEndBlock
          = 560000 by norm_num [calculateTSpendVotes, TreasuryActivationHeight],
        show (calculateTSpendVotes false 560000 0 600000 1000 500).VotingStartBlock
          = 557120 by
          norm_num [calculateTSpendVotes, TreasuryActivationHeight]]
      at h2
    rw [h2]
    norm_num
  · have h3 := (h.2.2.2.2.2.2.1 (by norm_num)).1
    rw [h3]
    norm_num

/-- Helper: the mempool accumulation loop leaves the accumulator unchanged
when every per-transaction fetch fails (each failure is skipped). -/
theorem mempool_fold_all_errors (env : MempoolEnv) :
    ∀ (ids : List String) (acc : Option (List TSpend)),
      (∀ h ∈ ids, ∃ e, env.txLookup h = Except.error e) →
      ids.foldl
        (fun acc txHash =>
          match env.txLookup txHash with
          | Except.error _ => acc
          | Except.ok tx =>
            if isTreasurySpend tx then
              some (acc.getD [] ++ [extractTSpendInfo tx
                (match env.blockCount with
                 | Except.ok h => h
                 | Except.error _ => 0)])
            else acc)
        acc = acc
  | [], acc, _ => rfl
  | txHash :: rest, acc, hall => by
    obtain ⟨e, he⟩ := hall txHash (List.mem_cons_self _ _)
    simp only [List.foldl_cons, he]
    exact mempool_fold_all_errors env rest acc
      (fun h hm => hall h (List.mem_cons_of_mem _ hm))

/-- C8: the mempool probe, as exposed through `FetchTreasuryInfo`'s
`ActiveTSpends` field, always delivers a non-nil slice; on total failure
(no client, or the mempool listing/unmarshal fails) and when every
per-transaction fetch fails, the slice is empty.  The nil normalization
happens at `FetchTreasuryInfo` (source lines 310–318), which replaces both
an error return and a nil slice from `scanMempoolForTSpends` by `[]`. -/
theorem fetchTreasuryInfo_never_null (env : MempoolEnv) :
    (∃ l, fetchTreasuryInfoActiveTSpends env = some l) ∧
      (env.clientAvailable = false →
        fetchTreasuryInfoActiveTSpends env = some []) ∧
      (∀ e, env.rawMempool = Except.error e →
        fetchTreasuryInfoActiveTSpends env = some []) ∧
      (∀ ids, env.rawMempool = Except.ok ids →
        (∀ h ∈ ids, ∃ e, env.txLookup h = Except.error e) →
        fetchTreasuryInfoActiveTSpends env = some []) := by
  refine ⟨?_, ?_, ?_, ?_⟩
  · unfold fetchTreasuryInfoActiveTSpends
    cases hscan : scanMempoolForTSpends env with
    | error e => exact ⟨[], rfl⟩
    | ok o =>
      cases o with
      | none => exact ⟨[], rfl⟩
      | some l => exact ⟨l, rfl⟩
  · intro hcl
    unfold fetchTreasuryInfoActiveTSpends scanMempoolForTSpends
    rw [hcl]
    rfl
  · intro e he
    unfold fetchTreasuryInfoActiveTSpends scanMempoolForTSpends
    cases hcl : env.clientAvailable with
    | false => rfl
    | true =>
      simp only [Bool.true_eq_false, if_false, he]
  · intro ids hids hall
    unfold fetchTreasuryInfoActiveTSpends scanMempoolForTSpends
    cases hcl : env.clientAvailable with
    | false => rfl
    | true =>
      simp only [Bool.true_eq_false, if_false, hids]
      rw [mempool_fold_all_errors env ids none hall]

/-- C8 witness: with the client up but the mempool listing failing, the
exposed active-spend list is the empty (non-nil) slice. -/
theorem fetchTreasuryInfo_never_null_w :
    fetchTreasuryInfoActiveTSpends envMempoolFail = some [] :=
  (fetchTreasuryInfo_never_null envMempoolFail).2.2.1 () rfl

/-- Caller steps of `GetTSpendVotingInfo` never write the result cache:
the only cache write in the source is the job's final write (lines
1010–1012). -/
theorem stepCaller_cache (e : Engine) (i : Nat) :
    (stepCaller e i).votingCache = e.votingCache := by
  unfold stepCaller
  cases hc : e.callers[i]? with
  | none => rfl
  | some c =>
    repeat' split
    all_goals rfl

/-- `m[k] = v` does not disturb lookups of other keys. -/
theorem cacheGet_setAssoc_ne
    (m : List (String × TSpendVotingInfo)) (k : String)
    (v : TSpendVotingInfo) (h : String) (hne : k ≠ h) :
    cacheGet (setAssoc m k v) h = cacheGet m h := by
  induction m with
  | nil => simp [setAssoc, cacheGet, hne]
  | cons kv rest ih =>
    obtain ⟨k2, v2⟩ := kv
    by_cases hk : k2 = k
    · subst hk
      simp only [setAssoc, if_pos rfl, cacheGet]
      rw [if_neg hne, if_neg hne]
    · simp only [setAssoc, if_neg hk, cacheGet]
      by_cases hh : k2 = h
      · rw [if_pos hh, if_pos hh]
      · rw [if_neg hh, if_neg hh]
        exact ih

/-- A job step can change the cache entry of `h` only if it is the
cache-writing step of a job for `h` itself. -/
theorem stepJob_cache_other (e : Engine) (j : Nat) (h : String)
    (hsafe : ∀ jb, e.jobsArr[j]? = some jb → jb.pc = JobPc.writeCache →
      jb.hash ≠ h) :
    cacheGet (stepJob e j).votingCache h = cacheGet e.votingCache h := by
  unfold stepJob
  cases hj : e.jobsArr[j]? with
  | none => rfl
  | some jb =>
    dsimp only
    cases hpc : jb.pc with
    | writeCache =>
      dsimp only
      exact cacheGet_setAssoc_ne _ _ _ _ (hsafe jb hj hpc)
    | deregister => rfl
    | finished => rfl

/-- C7 counterexample: a reachable execution in which the cache entry for
`"h"` changes after a finalized tally was written.  Two racing callers both
pass the running-job check before either registers (the check and the
registration are separate critical sections), so two jobs launch; the
first job's finalized write is later overwritten by the second job, which
computed from chain data read at a different time. -/
theorem cacheImmutability_counterexample :
    cacheGet (execE engRace (schedRace ++ [Choice.job 0])).votingCache "h"
        = some sampleTally1 ∧
      cacheGet (execE (execE engRace (schedRace ++ [Choice.job 0]))
          [Choice.job 0, Choice.job 1]).votingCache "h"
        = some sampleTally2 ∧
      sampleTally1 ≠ sampleTally2 := by
  refine ⟨by decide, by decide, by decide⟩

/-- C7 amended: `GetTSpendVotingInfo` calls never modify the cache; a
non-mempool call that finds `cached[hash] = v` returns exactly `v` and
changes nothing at all (no registration, no launch); and the only step
that can change the entry at `h` is the cache-writing step of a background
job for `h` itself — so once written, the entry can change only through a
second job launched before the write via the non-atomic check/register
race. -/
theorem cacheImmutability_amended :
    (∀ (e : Engine) (i : Nat),
        (stepCaller e i).votingCache = e.votingCache) ∧
      (∀ (e : Engine) (i : Nat) (c : CallerTh) (v : TSpendVotingInfo),
        e.callers[i]? = some c → c.pc = CallerPc.checkCache →
        c.isMempool = false → cacheGet e.votingCache c.hash = some v →
        stepCaller e i =
          { e with callers := (setAt e.callers i
              { c with pc := CallerPc.retCached v }) }) ∧
      (∀ (e : Engine) (ch : Choice) (h : String),
        (∀ j jb, ch = Choice.job j → e.jobsArr[j]? = some jb →
          jb.pc = JobPc.writeCache → jb.hash ≠ h) →
        cacheGet (stepE e ch).votingCache h = cacheGet e.votingCache h) := by
  refine ⟨stepCaller_cache, ?_, ?_⟩
  · intro e i c v hc hpc hmem hcache
    unfold stepCaller
    rw [hc]
    simp only [hpc, hmem, hcache]
    rfl
  · intro e ch h hsafe
    cases ch with
    | caller i =>
      show cacheGet (stepCaller e i).votingCache h = cacheGet e.votingCache h
      rw [stepCaller_cache]
    | job j => exact stepJob_cache_other e j h (fun jb => hsafe j jb rfl)

/-- C7 amended witness: with `"h"` cached, the fresh caller's cache-check
step returns exactly the cached tally and leaves the whole engine state
otherwise unchanged. -/
theorem cacheImmutability_amended_w :
    stepCaller engCachedW 0 =
      { engCachedW with callers := (setAt engCachedW.callers 0
          { hash := "h", isMempool := false, jobResult := sampleTally2,
            pc := CallerPc.retCached sampleTally1 }) } :=
  cacheImmutability_amended.2.1 engCachedW 0
    { hash := "h", isMempool := false, jobResult := sampleTally2,
      pc := CallerPc.checkCache } sampleTally1 rfl rfl rfl rfl

/-- C9: the racing interleaving — both callers' running-checks read
`false` before either registers, because the check (read lock) and the
registration (write lock) are separate critical sections — launches two
background jobs for the same hash, both simultaneously active,
contradicting the claimed at-most-one-job single-flight guarantee. -/
theorem tallySingleFlight_race :
    (execE engRace schedRace).launchCount = 2 ∧
      (execE engRace schedRace).jobsArr =
        [{ hash := "h", result := sampleTally1, pc := JobPc.writeCache },
         { hash := "h", result := sampleTally2, pc := JobPc.writeCache }] ∧
      (execE (engTwo sampleTally1 sampleTally2) schedSerial).launchCount
        = 1 := by
  refine ⟨by decide, by decide, by decide⟩

end DcrPulse
